import Mathlib

/-!
Shallow embedding of the `PredictiveAnalyzer` engine from `Transforme1.2.py`.

Conventions of the embedding:
* The three outcomes `'C'`, `'V'`, `'E'` become the inductive `Outcome`.
* History entries carry a timestamp in the source that no analysis ever
  reads; the embedding keeps only the outcome.  Likewise the `'time'` and
  `'description'` fields of signals and pattern matches are presentation
  strings and are dropped.
* Python float arithmetic on ratios is embedded as exact rational
  arithmetic over `ℚ`; `int(x)` on the nonnegative values produced here is
  `⌊x⌋` (truncation toward zero coincides with `floor` for `x ≥ 0`).
* Lists are kept in the source's chronological order (most recent last).
-/

inductive Outcome where
  | C  -- Vermelho (red)
  | V  -- Azul (blue)
  | E  -- Empate (tie)
deriving DecidableEq, Repr

inductive PatternType where
  | alternating
  | streak_end
  | twoByTwo  -- the `'2x2'` key of the source
deriving DecidableEq, Repr, Fintype

/-- The risk / volatility levels `'Baixo'/'Baixa'`, `'Médio'/'Média'`, `'Alto'/'Alta'`. -/
inductive Level where
  | Baixo
  | Medio
  | Alto
deriving DecidableEq, Repr

/-- The recommendation values `'Apostar'`, `'Observar'`, `'Evitar'`. -/
inductive Recommendation where
  | Apostar
  | Observar
  | Evitar
deriving DecidableEq, Repr

/-- A pattern dict appended by `detect_patterns`: the `'type'` key always,
`'color'` and `'length'` only for `streak_end` matches. -/
structure PatternMatch where
  type : PatternType
  color : Option Outcome := none
  length : Nat := 0
deriving DecidableEq, Repr

/-- One entry of `self.pattern_scores`. -/
structure Score where
  hits : Nat
  total : Nat
  priority : Nat
deriving DecidableEq, Repr

/-- `self.pattern_scores`: a dict with exactly the three keys
`'alternating'`, `'streak_end'`, `'2x2'`, in that insertion order. -/
structure PatternScores where
  alternating : Score
  streak_end : Score
  twoByTwo : Score
deriving DecidableEq, Repr

def PatternScores.get (ps : PatternScores) : PatternType → Score
  | .alternating => ps.alternating
  | .streak_end => ps.streak_end
  | .twoByTwo => ps.twoByTwo

def PatternScores.set (ps : PatternScores) : PatternType → Score → PatternScores
  | .alternating, s => { ps with alternating := s }
  | .streak_end, s => { ps with streak_end := s }
  | .twoByTwo, s => { ps with twoByTwo := s }

/-- `self.performance`. -/
structure Performance where
  total : Nat
  hits : Nat
  misses : Nat
deriving DecidableEq, Repr

/-- One entry of `self.signals`.  `correct` is `None` / `"✅"` / `"❌"` in the
source, embedded as `none` / `some true` / `some false`. -/
structure Signal where
  patterns : List PatternMatch
  prediction : Outcome
  correct : Option Bool
  confidence : Nat
deriving DecidableEq, Repr

/-- `self.analysis`. -/
structure Analysis where
  patterns : List PatternMatch
  riskLevel : Level
  volatility : Level
  prediction : Option Outcome
  confidence : Nat
  recommendation : Recommendation
deriving DecidableEq, Repr

/-- The default analysis dict assigned in `__init__`, `clear_history`,
`undo_last` (empty-history branch) and `analyze_data` (short-history branch). -/
def defaultAnalysis : Analysis :=
  { patterns := [], riskLevel := .Baixo, volatility := .Baixo,
    prediction := none, confidence := 0, recommendation := .Observar }

/-- The whole mutable state of a `PredictiveAnalyzer`. -/
structure AnalyzerState where
  history : List Outcome
  signals : List Signal
  performance : Performance
  pattern_scores : PatternScores
  analysis : Analysis
deriving DecidableEq, Repr

/-- The state built by `__init__` / `clear_history` (ignoring the external
persistence file, which is out of the engine core). -/
def initState : AnalyzerState :=
  { history := []
    signals := []
    performance := { total := 0, hits := 0, misses := 0 }
    pattern_scores :=
      { alternating := { hits := 0, total := 0, priority := 3 }
        streak_end := { hits := 0, total := 0, priority := 2 }
        twoByTwo := { hits := 0, total := 0, priority := 1 } }
    analysis := defaultAnalysis }

/-! ## `detect_patterns` -/

/-- The backward scan of the `streak_end` detector: starting from index
`len-2` the source walks left while `results[i] == results[-2]`, adding 1 to
an accumulator that starts at 1.  `countRunRev target l` counts the leading
elements of the (already reversed) list `l` equal to `target`. -/
def countRunRev (target : Outcome) : List Outcome → Nat
  | [] => 0
  | a :: rest => if a = target then countRunRev target rest + 1 else 0

/-- `detect_patterns(data)` on the list of results (chronological order).
The alternating test `len(set(results[-2:])) == 2` is exactly
`results[-1] ≠ results[-2]`, already required by the preceding conjunct. -/
def detect_patterns (results : List Outcome) : List PatternMatch :=
  let rev := results.reverse
  let alt : List PatternMatch :=
    match rev with
    | r1 :: r2 :: _ =>
      if r1 ≠ r2 then [{ type := .alternating }] else []
    | _ => []
  let streak : List PatternMatch :=
    match rev with
    | r1 :: r2 :: rest =>
      if r1 ≠ r2 then
        -- the source scan starts at index len-2, so it recounts results[-2]:
        -- streak_length = 1 + (run of results[-2] ending at index len-2)
        let streak_length := 1 + countRunRev r2 (r2 :: rest)
        if streak_length ≥ 2 then
          [{ type := .streak_end, color := some r2, length := streak_length }]
        else []
      else []
    | _ => []
  let two : List PatternMatch :=
    match rev with
    | d :: c :: b :: a :: _ =>
      -- last4 = [a, b, c, d] in chronological order
      if a = b ∧ c = d ∧ a ≠ c then [{ type := .twoByTwo }] else []
    | _ => []
  alt ++ streak ++ two

/-! ## `_calculate_statistical_bias` and `_assess_volatility` -/

def _calculate_statistical_bias (results : List Outcome) : Level :=
  if results.isEmpty then .Baixo
  else
    let c_count := results.count .C
    let v_count := results.count .V
    let e_count := results.count .E
    let total_non_tie := c_count + v_count
    let actual_e_ratio : ℚ := (e_count : ℚ) / (results.length : ℚ)
    if actual_e_ratio > (27 / 1000 : ℚ) * 3 ∨ e_count ≥ 3 then .Alto
    else if 0 < total_non_tie ∧
        (|(c_count : ℚ) / (total_non_tie : ℚ) - 1/2| > 15/100 ∨
         |(v_count : ℚ) / (total_non_tie : ℚ) - 1/2| > 15/100) then .Medio
    else .Baixo

/-- The change-counting loop `for i in range(1, len(results))`. -/
def countChanges : List Outcome → Nat
  | a :: b :: rest => (if a ≠ b then 1 else 0) + countChanges (b :: rest)
  | _ => 0

def _assess_volatility (results : List Outcome) : Level :=
  if results.length < 5 then .Baixo
  else
    let change_rate : ℚ := (countChanges results : ℚ) / (results.length : ℚ)
    if change_rate < 2/10 then .Alto
    else if change_rate > 6/10 then .Baixo
    else .Medio

/-! ## `make_prediction` -/

/-- The per-kind priority adjustment at the top of `make_prediction`:
`if scores['total'] > 5 and scores['hits'] / scores['total'] > 0.5:
   scores['priority'] = int(min(5, (scores['hits'] / scores['total']) * 5))
 else: scores['priority'] = max(1, scores['priority'] - 1)`. -/
def adjustScore (s : Score) : Score :=
  if 5 < s.total ∧ (1/2 : ℚ) < (s.hits : ℚ) / (s.total : ℚ) then
    -- `int(x)` of the nonnegative float `x`: truncation = floor
    { s with priority := ⌊min (5 : ℚ) ((s.hits : ℚ) / (s.total : ℚ) * 5)⌋₊ }
  else
    { s with priority := max 1 (s.priority - 1) }

def adjustScores (ps : PatternScores) : PatternScores :=
  { alternating := adjustScore ps.alternating
    streak_end := adjustScore ps.streak_end
    twoByTwo := adjustScore ps.twoByTwo }

/-- The selection loop: running `(best_pattern_type, highest_priority)`
accumulator, updated when `priority > highest_priority` (strict). -/
def selectBest (ps : PatternScores) (patterns : List PatternMatch) :
    Option PatternType × Nat :=
  patterns.foldl
    (fun acc p =>
      let priority := (ps.get p.type).priority
      if priority > acc.2 then (some p.type, priority) else acc)
    (none, 0)

/-- Result record of `make_prediction`. -/
structure Prediction where
  color : Option Outcome
  confidence : Nat
  pattern_type : Option PatternType
deriving DecidableEq, Repr

/-- `'C' if x == 'V' else 'V'`. -/
def flipOutcome (x : Outcome) : Outcome :=
  if x = .V then .C else .V

/-- `make_prediction(data, patterns)`.  Mutating `self.pattern_scores` is
embedded by also returning the adjusted scores.  `results` is nonempty at
every call site (`analyze_data` requires `len ≥ 3`); the `.getD` defaults
below are never reached there. -/
def make_prediction (ps : PatternScores) (results : List Outcome)
    (patterns : List PatternMatch) : Prediction × PatternScores :=
  let last_result := results.getLastD .E
  let ps' := adjustScores ps
  let best_pattern_type := (selectBest ps' patterns).1
  let pred : Prediction :=
    match best_pattern_type with
    | some .alternating =>
      { color := some (flipOutcome last_result), confidence := 0,
        pattern_type := some .alternating }
    | some .streak_end =>
      -- `[p['color'] for p in patterns if p['type'] == 'streak_end'][0]`;
      -- nonempty whenever streak_end was selected from `patterns`
      let streak_color :=
        ((patterns.filter (fun p => p.type = .streak_end)).head?.bind
          (fun p => p.color)).getD .E
      { color := some (flipOutcome streak_color), confidence := 0,
        pattern_type := some .streak_end }
    | some .twoByTwo =>
      { color := some (flipOutcome last_result), confidence := 0,
        pattern_type := some .twoByTwo }
    | none => { color := none, confidence := 0, pattern_type := none }
  let pred :=
    match pred.pattern_type with
    | some k =>
      let s := ps'.get k
      if 0 < s.total then
        { pred with confidence := ⌊(s.hits : ℚ) / (s.total : ℚ) * 100⌋₊ }
      else
        { pred with confidence := 50 }
    | none => pred
  (pred, ps')

/-! ## `get_recommendation` and `analyze_data` -/

def get_recommendation (risk volatility : Level) (confidence : Nat) :
    Recommendation :=
  if risk = .Alto ∨ volatility = .Alto then .Evitar
  else if 65 < confidence ∧ risk = .Baixo ∧ volatility = .Baixo then .Apostar
  else .Observar

/-- `analyze_data(self)`. -/
def analyze_data (s : AnalyzerState) : AnalyzerState :=
  if s.history.length < 3 then
    { s with analysis := defaultAnalysis }
  else
    let recent_data := s.history.drop (s.history.length - 90)
    let patterns := detect_patterns recent_data
    let risk_level := _calculate_statistical_bias recent_data
    let volatility := _assess_volatility recent_data
    let (prediction_result, ps') := make_prediction s.pattern_scores recent_data patterns
    { s with
      pattern_scores := ps'
      analysis :=
        { patterns := patterns
          riskLevel := risk_level
          volatility := volatility
          prediction := prediction_result.color
          confidence := prediction_result.confidence
          recommendation :=
            get_recommendation risk_level volatility prediction_result.confidence } }

/-! ## `verify_previous_prediction` and `_update_learning_score` -/

/-- `_update_learning_score(signal, was_correct)`: every pattern embedded in
the resolved signal bumps its kind's `total`, and `hits` when correct.  The
source's `if p_type in self.pattern_scores` guard is always true: the dict
has exactly the three keys and `type` ranges over them. -/
def _update_learning_score (ps : PatternScores) (patterns : List PatternMatch)
    (was_correct : Bool) : PatternScores :=
  patterns.foldl
    (fun acc p =>
      let s := acc.get p.type
      acc.set p.type
        { s with total := s.total + 1, hits := s.hits + (if was_correct then 1 else 0) })
    ps

/-- The reversed scan `for i in reversed(range(len(self.signals)))`: the
input list is the reversed signal ledger; the first entry with
`correct = none` is resolved against `outcome` and the scan stops.  Returns
the updated (still reversed) list and, when a pending signal was found,
whether it was correct together with its embedded patterns. -/
def resolveRevAux (outcome : Outcome) :
    List Signal → List Signal × Option (Bool × List PatternMatch)
  | [] => ([], none)
  | sg :: rest =>
    if sg.correct = none then
      let hit : Bool := decide (sg.prediction = outcome)
      ({ sg with correct := some hit } :: rest, some (hit, sg.patterns))
    else
      let (rest', r) := resolveRevAux outcome rest
      (sg :: rest', r)

/-- `verify_previous_prediction(current_outcome)`. -/
def verify_previous_prediction (s : AnalyzerState) (current_outcome : Outcome) :
    AnalyzerState :=
  let (revSignals', r) := resolveRevAux current_outcome s.signals.reverse
  match r with
  | none => s
  | some (hit, patterns) =>
    { s with
      signals := revSignals'.reverse
      performance :=
        { total := s.performance.total + 1
          hits := s.performance.hits + (if hit then 1 else 0)
          misses := s.performance.misses + (if hit then 0 else 1) }
      pattern_scores := _update_learning_score s.pattern_scores patterns hit }

/-! ## The public operations -/

/-- `add_outcome(outcome)`. -/
def add_outcome (s : AnalyzerState) (outcome : Outcome) : AnalyzerState :=
  let s1 := verify_previous_prediction s outcome
  let s2 := { s1 with history := s1.history ++ [outcome] }
  let s3 := analyze_data s2
  match s3.analysis.prediction with
  | some p =>
    { s3 with
      signals := s3.signals ++
        [{ patterns := s3.analysis.patterns, prediction := p,
           correct := none, confidence := s3.analysis.confidence }] }
  | none => s3

/-- `undo_last()`. -/
def undo_last (s : AnalyzerState) : AnalyzerState × Bool :=
  if s.history.isEmpty then (s, false)
  else
    let signals' :=
      match s.signals.getLast? with
      | some sg => if sg.correct = none then s.signals.dropLast else s.signals
      | none => s.signals
    let s1 := { s with signals := signals', history := s.history.dropLast }
    let s2 :=
      if s1.history.isEmpty then { s1 with analysis := defaultAnalysis }
      else analyze_data s1
    (s2, true)

/-- `clear_history()`. -/
def clear_history (_s : AnalyzerState) : AnalyzerState := initState

/-- `get_accuracy()`. -/
def get_accuracy (s : AnalyzerState) : ℚ :=
  if s.performance.total = 0 then 0
  else (s.performance.hits : ℚ) / (s.performance.total : ℚ) * 100

/-- States reachable from the fresh engine via the public operations. -/
inductive Reachable : AnalyzerState → Prop where
  | init : Reachable initState
  | add {s} (o : Outcome) : Reachable s → Reachable (add_outcome s o)
  | undo {s} : Reachable s → Reachable (undo_last s).1
  | clear {s} : Reachable s → Reachable (clear_history s)

/-! ## Specification-side definitions and exact-arithmetic mirrors

The engine's rational tests are restated in exact integer arithmetic
(`hits/total > 1/2  ⟺  total < 2·hits`, `⌊(hits/total)·5⌋ = 5·hits/total`
with `ℕ` floor division, and so on).  The equivalence theorems below prove
that the source's rational computations realise these integer rules; the
integer forms also evaluate by `decide`, which the `ℚ` forms do not. -/

/-- Claim C1's priority recomputation rule in exact integer arithmetic:
more than 5 resolved attributions and hit ratio above one half give
`priority = ⌊min 5 ((hits/total)·5)⌋ = min 5 (5·hits/total)`; otherwise the
priority decays by one, floored at 1. -/
def specAdjustScore (s : Score) : Score :=
  if 5 < s.total ∧ s.total < 2 * s.hits then
    { s with priority := min 5 (5 * s.hits / s.total) }
  else
    { s with priority := max 1 (s.priority - 1) }

def specAdjustScores (ps : PatternScores) : PatternScores :=
  { alternating := specAdjustScore ps.alternating
    streak_end := specAdjustScore ps.streak_end
    twoByTwo := specAdjustScore ps.twoByTwo }

/-- Claim C3's amended confidence rule: `⌊(hits/total)·100⌋ = 100·hits/total`
when `total > 0`, else the fixed default 50. -/
def specConfidence (s : Score) : ℕ :=
  if 0 < s.total then 100 * s.hits / s.total else 50

/-- `_calculate_statistical_bias` with every rational test restated over ℤ/ℕ:
`e/n > 0.081 ⟺ 81·n < 1000·e` and `|c/tnt − 1/2| > 0.15 ⟺ 3·tnt < 10·|2c − tnt|`. -/
def biasNat (results : List Outcome) : Level :=
  if results.isEmpty then .Baixo
  else
    let c_count := results.count .C
    let v_count := results.count .V
    let e_count := results.count .E
    let total_non_tie := c_count + v_count
    if 81 * results.length < 1000 * e_count ∨ 3 ≤ e_count then .Alto
    else if 0 < total_non_tie ∧
        (3 * total_non_tie < 10 * (2 * (c_count : ℤ) - total_non_tie).natAbs ∨
         3 * total_non_tie < 10 * (2 * (v_count : ℤ) - total_non_tie).natAbs) then .Medio
    else .Baixo

/-- `_assess_volatility` with the rate tests restated over ℕ:
`changes/n < 0.2 ⟺ 5·changes < n` and `changes/n > 0.6 ⟺ 3·n < 5·changes`. -/
def volatilityNat (results : List Outcome) : Level :=
  if results.length < 5 then .Baixo
  else if 5 * countChanges results < results.length then .Alto
  else if 3 * results.length < 5 * countChanges results then .Baixo
  else .Medio

/-- `make_prediction` with the priority adjustment and the confidence in
exact integer arithmetic. -/
def make_prediction_nat (ps : PatternScores) (results : List Outcome)
    (patterns : List PatternMatch) : Prediction × PatternScores :=
  let last_result := results.getLastD .E
  let ps' := specAdjustScores ps
  let best_pattern_type := (selectBest ps' patterns).1
  let pred : Prediction :=
    match best_pattern_type with
    | some .alternating =>
      { color := some (flipOutcome last_result), confidence := 0,
        pattern_type := some .alternating }
    | some .streak_end =>
      let streak_color :=
        ((patterns.filter (fun p => p.type = .streak_end)).head?.bind
          (fun p => p.color)).getD .E
      { color := some (flipOutcome streak_color), confidence := 0,
        pattern_type := some .streak_end }
    | some .twoByTwo =>
      { color := some (flipOutcome last_result), confidence := 0,
        pattern_type := some .twoByTwo }
    | none => { color := none, confidence := 0, pattern_type := none }
  let pred :=
    match pred.pattern_type with
    | some k => { pred with confidence := specConfidence (ps'.get k) }
    | none => pred
  (pred, ps')

/-- `analyze_data` built on the exact-arithmetic mirrors. -/
def analyze_data_nat (s : AnalyzerState) : AnalyzerState :=
  if s.history.length < 3 then
    { s with analysis := defaultAnalysis }
  else
    let recent_data := s.history.drop (s.history.length - 90)
    let patterns := detect_patterns recent_data
    let risk_level := biasNat recent_data
    let volatility := volatilityNat recent_data
    let (prediction_result, ps') := make_prediction_nat s.pattern_scores recent_data patterns
    { s with
      pattern_scores := ps'
      analysis :=
        { patterns := patterns
          riskLevel := risk_level
          volatility := volatility
          prediction := prediction_result.color
          confidence := prediction_result.confidence
          recommendation :=
            get_recommendation risk_level volatility prediction_result.confidence } }

/-- `add_outcome` built on the exact-arithmetic mirrors. -/
def add_outcome_nat (s : AnalyzerState) (outcome : Outcome) : AnalyzerState :=
  let s1 := verify_previous_prediction s outcome
  let s2 := { s1 with history := s1.history ++ [outcome] }
  let s3 := analyze_data_nat s2
  match s3.analysis.prediction with
  | some p =>
    { s3 with
      signals := s3.signals ++
        [{ patterns := s3.analysis.patterns, prediction := p,
           correct := none, confidence := s3.analysis.confidence }] }
  | none => s3

/-- `undo_last` built on the exact-arithmetic mirrors. -/
def undo_last_nat (s : AnalyzerState) : AnalyzerState × Bool :=
  if s.history.isEmpty then (s, false)
  else
    let signals' :=
      match s.signals.getLast? with
      | some sg => if sg.correct = none then s.signals.dropLast else s.signals
      | none => s.signals
    let s1 := { s with signals := signals', history := s.history.dropLast }
    let s2 :=
      if s1.history.isEmpty then { s1 with analysis := defaultAnalysis }
      else analyze_data_nat s1
    (s2, true)

/-- The number of adjacent-pair transitions of the window that differ,
counted pair-by-pair as claim C4 words it. -/
def specDiffTransitions (results : List Outcome) : ℕ :=
  (results.zip results.tail).countP (fun ab => ab.1 ≠ ab.2)

/-- Volatility as claim C4 states it: the change rate is the fraction of
adjacent-pair *transitions* that differ (denominator `n − 1`), with no
short-window guard. -/
def claimVolatility (results : List Outcome) : Level :=
  let rate : ℚ := (specDiffTransitions results : ℚ) / ((results.length - 1 : ℕ) : ℚ)
  if rate < 2/10 then .Alto
  else if rate > 6/10 then .Baixo
  else .Medio

/-- Volatility as amended: windows of fewer than 5 entries give Low, and the
change rate divides the differing-transition count by the window *length*. -/
def amendedVolatility (results : List Outcome) : Level :=
  if results.length < 5 then .Baixo
  else
    let rate : ℚ := (specDiffTransitions results : ℚ) / (results.length : ℚ)
    if rate < 2/10 then .Alto
    else if rate > 6/10 then .Baixo
    else .Medio

/-- A concrete pending signal used to exercise the learning loop. -/
def exampleSignal : Signal :=
  { patterns := [{ type := .alternating }], prediction := .C,
    correct := none, confidence := 50 }

/-- A concrete state with one pending signal used to exercise the learning
loop. -/
def exampleState : AnalyzerState :=
  { history := [.C, .C]
    signals := [exampleSignal]
    performance := { total := 0, hits := 0, misses := 0 }
    pattern_scores := initState.pattern_scores
    analysis := defaultAnalysis }

/-! # Bridge lemmas: the rational tests in exact integer arithmetic -/

theorem ratCast_pos {n : ℕ} (hn : 0 < n) : (0:ℚ) < (n:ℚ) := by exact_mod_cast hn

theorem ratio_lt_ratio_iff (a n b m : ℕ) (hn : 0 < n) (hm : 0 < m) :
    ((a:ℚ)/(n:ℚ) < (b:ℚ)/(m:ℚ)) ↔ a * m < b * n := by
  rw [div_lt_div_iff₀ (ratCast_pos hn) (ratCast_pos hm)]
  exact_mod_cast Iff.rfl

theorem half_lt_ratio_iff (h t : ℕ) (ht : 0 < t) :
    ((1/2 : ℚ) < (h:ℚ)/(t:ℚ)) ↔ t < 2 * h := by
  rw [show (1/2 : ℚ) = ((1:ℕ):ℚ)/((2:ℕ):ℚ) by norm_num,
    ratio_lt_ratio_iff 1 2 h t (by norm_num) ht]
  omega

theorem floorNat_ratio_mul (h t m : ℕ) :
    ⌊(h : ℚ) / (t : ℚ) * m⌋₊ = m * h / t := by
  rw [div_mul_eq_mul_div, show (h:ℚ) * m = ((m * h : ℕ) : ℚ) by push_cast; ring,
    Nat.floor_div_nat, Nat.floor_natCast]

theorem floorNat_min_five (h t : ℕ) :
    ⌊min (5:ℚ) ((h:ℚ)/(t:ℚ) * 5)⌋₊ = min 5 (5 * h / t) := by
  have hcast : (5:ℚ) = ((5:ℕ):ℚ) := by norm_num
  rcases le_total ((h:ℚ)/(t:ℚ) * 5) 5 with hle | hle
  · have hf := Nat.floor_le_floor hle
    rw [show (h:ℚ)/(t:ℚ) * 5 = (h:ℚ)/(t:ℚ) * ((5:ℕ):ℚ) by norm_num,
      floorNat_ratio_mul] at hf
    simp only [Nat.floor_ofNat] at hf
    rw [min_eq_right hle, show (h:ℚ)/(t:ℚ) * 5 = (h:ℚ)/(t:ℚ) * ((5:ℕ):ℚ) by norm_num,
      floorNat_ratio_mul, min_eq_right hf]
  · have hf := Nat.floor_le_floor hle
    rw [show (h:ℚ)/(t:ℚ) * 5 = (h:ℚ)/(t:ℚ) * ((5:ℕ):ℚ) by norm_num,
      floorNat_ratio_mul] at hf
    simp only [Nat.floor_ofNat] at hf
    rw [min_eq_left hle, min_eq_left hf]
    simp

theorem adjustScore_eq_spec (s : Score) : adjustScore s = specAdjustScore s := by
  unfold adjustScore specAdjustScore
  rcases Nat.eq_zero_or_pos s.total with h0 | hpos
  · simp [h0]
  · simp only [half_lt_ratio_iff s.hits s.total hpos, floorNat_min_five]

theorem adjustScores_eq_spec (ps : PatternScores) :
    adjustScores ps = specAdjustScores ps := by
  simp [adjustScores, specAdjustScores, adjustScore_eq_spec]

theorem tie_ratio_iff (e n : ℕ) (hn : 0 < n) :
    ((e:ℚ)/(n:ℚ) > (27/1000 : ℚ) * 3) ↔ 81 * n < 1000 * e := by
  rw [gt_iff_lt, show (27/1000 : ℚ) * 3 = ((81:ℕ):ℚ)/((1000:ℕ):ℚ) by norm_num,
    ratio_lt_ratio_iff 81 1000 e n (by norm_num) hn]
  omega

theorem abs_ratio_iff (c tnt : ℕ) (h : 0 < tnt) :
    (|(c:ℚ)/(tnt:ℚ) - 1/2| > 15/100) ↔
      3 * tnt < 10 * (2 * (c:ℤ) - tnt).natAbs := by
  have htq : (0:ℚ) < (tnt:ℚ) := ratCast_pos h
  have key : (c:ℚ)/(tnt:ℚ) - 1/2 = ((2*(c:ℤ) - tnt : ℤ) : ℚ) / (2 * tnt) := by
    field_simp
    ring
  rw [gt_iff_lt, key, abs_div, abs_of_pos (by linarith : (0:ℚ) < 2 * (tnt:ℚ)),
    show |((2*(c:ℤ) - tnt : ℤ) : ℚ)| = (((2*(c:ℤ) - (tnt:ℤ)).natAbs : ℕ) : ℚ) by
      rw [Int.cast_natAbs, Int.cast_abs],
    show (15/100 : ℚ) = 3/20 by norm_num,
    div_lt_div_iff₀ (by norm_num) (by linarith : (0:ℚ) < 2 * (tnt:ℚ))]
  constructor
  · intro hx
    have hx' : ((3 * (2 * tnt) : ℕ) : ℚ) < ((((2*(c:ℤ) - tnt).natAbs * 20 : ℕ)) : ℚ) := by
      push_cast
      linarith
    have := Nat.cast_lt.mp hx'
    omega
  · intro hx
    have hx' : ((3 * (2 * tnt) : ℕ) : ℚ) < ((((2*(c:ℤ) - tnt).natAbs * 20 : ℕ)) : ℚ) :=
      Nat.cast_lt.mpr (by omega)
    push_cast at hx'
    linarith

theorem bias_eq_nat (results : List Outcome) :
    _calculate_statistical_bias results = biasNat results := by
  unfold _calculate_statistical_bias biasNat
  by_cases hemp : results.isEmpty
  · simp [hemp]
  · have hn : 0 < results.length := by
      cases results with
      | nil => simp at hemp
      | cons a l => simp
    by_cases htnt : 0 < results.count Outcome.C + results.count Outcome.V
    · simp only [if_neg hemp, tie_ratio_iff _ _ hn, abs_ratio_iff _ _ htnt,
        ge_iff_le, gt_iff_lt]
    · have h0 : results.count Outcome.C + results.count Outcome.V = 0 := by omega
      simp only [if_neg hemp, tie_ratio_iff _ _ hn, h0, lt_self_iff_false,
        false_and, if_false, ge_iff_le, gt_iff_lt]

theorem volatility_eq_nat (results : List Outcome) :
    _assess_volatility results = volatilityNat results := by
  unfold _assess_volatility volatilityNat
  by_cases hlen : results.length < 5
  · simp [hlen]
  · have hn : 0 < results.length := by omega
    have h1 : ((countChanges results : ℚ)/(results.length : ℚ) < 2/10) ↔
        (5 * countChanges results < results.length) := by
      rw [show (2/10 : ℚ) = ((2:ℕ):ℚ)/((10:ℕ):ℚ) by norm_num,
        ratio_lt_ratio_iff _ _ _ _ hn (by norm_num)]
      omega
    have h2 : ((countChanges results : ℚ)/(results.length : ℚ) > 6/10) ↔
        (3 * results.length < 5 * countChanges results) := by
      rw [gt_iff_lt, show (6/10 : ℚ) = ((6:ℕ):ℚ)/((10:ℕ):ℚ) by norm_num,
        ratio_lt_ratio_iff _ _ _ _ (by norm_num) hn]
      omega
    simp only [if_neg hlen, h1, h2]

theorem floorNat_ratio_hundred (h t : ℕ) :
    ⌊(h:ℚ)/(t:ℚ) * 100⌋₊ = 100 * h / t := by
  rw [show (100:ℚ) = ((100:ℕ):ℚ) by norm_num, floorNat_ratio_mul]

theorem make_prediction_eq_nat (ps : PatternScores) (results : List Outcome)
    (patterns : List PatternMatch) :
    make_prediction ps results patterns = make_prediction_nat ps results patterns := by
  unfold make_prediction make_prediction_nat
  rw [adjustScores_eq_spec]
  cases hsel : (selectBest (specAdjustScores ps) patterns).1 with
  | none => simp [hsel]
  | some k =>
    cases k <;>
      simp only [hsel, specConfidence] <;>
      split <;>
      simp_all [floorNat_ratio_hundred]

theorem analyze_eq_nat (s : AnalyzerState) :
    analyze_data s = analyze_data_nat s := by
  unfold analyze_data analyze_data_nat
  simp only [bias_eq_nat, volatility_eq_nat, make_prediction_eq_nat]

theorem add_outcome_eq_nat (s : AnalyzerState) (o : Outcome) :
    add_outcome s o = add_outcome_nat s o := by
  unfold add_outcome add_outcome_nat
  simp only [analyze_eq_nat]

theorem undo_last_eq_nat (s : AnalyzerState) :
    undo_last s = undo_last_nat s := by
  unfold undo_last undo_last_nat
  simp only [analyze_eq_nat]

/-! # List-level helper lemmas -/

theorem countChanges_eq_spec (results : List Outcome) :
    countChanges results = specDiffTransitions results := by
  unfold specDiffTransitions
  induction results with
  | nil => rfl
  | cons a rest ih =>
    cases rest with
    | nil => rfl
    | cons b rest' =>
      simp only [countChanges, List.tail_cons, List.zip_cons_cons,
        List.countP_cons, ih, List.tail_cons]
      by_cases hab : a = b
      all_goals simp [hab]
      all_goals omega

theorem resolveRevAux_length (o : Outcome) (l : List Signal) :
    (resolveRevAux o l).1.length = l.length := by
  induction l with
  | nil => rfl
  | cons sg rest ih =>
    unfold resolveRevAux
    by_cases h : sg.correct = none
    · simp [h]
    · simp [h, ih]

theorem resolveRevAux_all_resolved (o : Outcome) (l : List Signal)
    (h : ∀ t ∈ l, t.correct ≠ none) : resolveRevAux o l = (l, none) := by
  induction l with
  | nil => rfl
  | cons sg rest ih =>
    have hsg : sg.correct ≠ none := h sg (List.mem_cons_self _ _)
    unfold resolveRevAux
    rw [if_neg hsg, ih (fun t ht => h t (List.mem_cons_of_mem _ ht))]

theorem resolveRevAux_found (o : Outcome) (pre : List Signal)
    (hpre : ∀ t ∈ pre, t.correct ≠ none) (sg : Signal) (hsg : sg.correct = none)
    (rest : List Signal) :
    resolveRevAux o (pre ++ sg :: rest) =
      (pre ++ { sg with correct := some (decide (sg.prediction = o)) } :: rest,
       some (decide (sg.prediction = o), sg.patterns)) := by
  induction pre with
  | nil =>
    simp only [List.nil_append]
    unfold resolveRevAux
    rw [if_pos hsg]
  | cons t pre' ih =>
    have ht : t.correct ≠ none := hpre t (List.mem_cons_self _ _)
    simp only [List.cons_append]
    unfold resolveRevAux
    rw [if_neg ht, ih (fun u hu => hpre u (List.mem_cons_of_mem _ hu))]

theorem resolveRevAux_head_resolved (o : Outcome) (l : List Signal) :
    ∀ sg, (resolveRevAux o l).1.head? = some sg → sg.correct ≠ none := by
  cases l with
  | nil => intro sg h; simp [resolveRevAux] at h
  | cons t rest =>
    intro sg h
    unfold resolveRevAux at h
    by_cases ht : t.correct = none
    · rw [if_pos ht] at h
      simp only [List.head?_cons, Option.some.injEq] at h
      rw [← h]
      simp
    · rw [if_neg ht] at h
      simp only [List.head?_cons, Option.some.injEq] at h
      rw [← h]
      exact ht

theorem resolveRevAux_predictions (o : Outcome) (l : List Signal) :
    ∀ sg ∈ (resolveRevAux o l).1, ∃ t ∈ l, sg.prediction = t.prediction := by
  induction l with
  | nil => intro sg h; simp [resolveRevAux] at h
  | cons t rest ih =>
    intro sg h
    unfold resolveRevAux at h
    by_cases ht : t.correct = none
    · rw [if_pos ht] at h
      rcases List.mem_cons.mp h with h1 | h1
      · exact ⟨t, List.mem_cons_self _ _, by rw [h1]⟩
      · exact ⟨sg, List.mem_cons_of_mem _ h1, rfl⟩
    · rw [if_neg ht] at h
      simp only at h
      rcases List.mem_cons.mp h with h1 | h1
      · exact ⟨t, List.mem_cons_self _ _, by rw [h1]⟩
      · rcases ih sg h1 with ⟨u, hu, he⟩
        exact ⟨u, List.mem_cons_of_mem _ hu, he⟩

theorem PatternScores.get_set (ps : PatternScores) (t k : PatternType) (s : Score) :
    (ps.set t s).get k = if k = t then s else ps.get k := by
  cases t <;> cases k <;> simp [PatternScores.get, PatternScores.set]

theorem update_learning_get (pats : List PatternMatch) (ps : PatternScores)
    (b : Bool) (k : PatternType) :
    (_update_learning_score ps pats b).get k =
      { hits := (ps.get k).hits +
          (if b then pats.countP (fun p => p.type = k) else 0)
        total := (ps.get k).total + pats.countP (fun p => p.type = k)
        priority := (ps.get k).priority } := by
  induction pats generalizing ps with
  | nil =>
    cases b <;> simp [_update_learning_score]
  | cons p rest ih =>
    unfold _update_learning_score at ih ⊢
    rw [List.foldl_cons, ih, PatternScores.get_set, List.countP_cons]
    by_cases hk : k = p.type
    · subst hk
      cases b
      all_goals simp
      all_goals omega
    · have hk' : ¬ (p.type = k) := fun h => hk h.symm
      cases b
      all_goals simp [hk, hk']

theorem verify_history (s : AnalyzerState) (o : Outcome) :
    (verify_previous_prediction s o).history = s.history := by
  unfold verify_previous_prediction
  rcases hr : resolveRevAux o s.signals.reverse with ⟨l', r⟩
  cases r <;> simp

theorem verify_analysis (s : AnalyzerState) (o : Outcome) :
    (verify_previous_prediction s o).analysis = s.analysis := by
  unfold verify_previous_prediction
  rcases hr : resolveRevAux o s.signals.reverse with ⟨l', r⟩
  cases r <;> simp

theorem verify_signals_length (s : AnalyzerState) (o : Outcome) :
    (verify_previous_prediction s o).signals.length = s.signals.length := by
  unfold verify_previous_prediction
  rcases hr : resolveRevAux o s.signals.reverse with ⟨l', r⟩
  have hlen : l'.length = s.signals.length := by
    have := resolveRevAux_length o s.signals.reverse
    rw [hr] at this
    simpa using this
  cases r <;> simp [hlen]

theorem resolveRevAux_none_all (o : Outcome) (l : List Signal)
    (h : (resolveRevAux o l).2 = none) : ∀ t ∈ l, t.correct ≠ none := by
  induction l with
  | nil => intro t ht; simp at ht
  | cons sg rest ih =>
    intro t ht
    unfold resolveRevAux at h
    by_cases hsg : sg.correct = none
    · rw [if_pos hsg] at h
      simp at h
    · rw [if_neg hsg] at h
      simp only at h
      rcases List.mem_cons.mp ht with h1 | h1
      · rw [h1]; exact hsg
      · exact ih h t h1

theorem verify_getLast_resolved (s : AnalyzerState) (o : Outcome) :
    ∀ sg, (verify_previous_prediction s o).signals.getLast? = some sg →
      sg.correct ≠ none := by
  intro sg hsg
  unfold verify_previous_prediction at hsg
  rcases hr : resolveRevAux o s.signals.reverse with ⟨l', r⟩
  rw [hr] at hsg
  cases r with
  | none =>
    simp only at hsg
    have hall := resolveRevAux_none_all o s.signals.reverse (by rw [hr])
    rcases List.getLast?_eq_some_iff.mp hsg with ⟨ys, hys⟩
    have hmem : sg ∈ s.signals := by rw [hys]; simp
    exact hall sg (List.mem_reverse.mpr hmem)
  | some pr =>
    simp only at hsg
    rw [List.getLast?_reverse] at hsg
    have hhead := resolveRevAux_head_resolved o s.signals.reverse sg
    rw [hr] at hhead
    exact hhead hsg

theorem analyze_history (s : AnalyzerState) :
    (analyze_data s).history = s.history := by
  unfold analyze_data
  split <;> rfl

theorem analyze_signals (s : AnalyzerState) :
    (analyze_data s).signals = s.signals := by
  unfold analyze_data
  split <;> rfl

theorem analyze_performance (s : AnalyzerState) :
    (analyze_data s).performance = s.performance := by
  unfold analyze_data
  split <;> rfl

theorem undo_empty (s : AnalyzerState) (h : s.history = []) :
    undo_last s = (s, false) := by
  unfold undo_last
  rw [if_pos (by simp [h])]

/-- What `undo_last` does on a nonempty history, at the level of the
history and signal ledgers. -/
theorem undo_shape (s : AnalyzerState) (h : ¬ s.history.isEmpty) :
    (undo_last s).1.history = s.history.dropLast ∧
    (undo_last s).1.signals =
      (match s.signals.getLast? with
       | some sg => if sg.correct = none then s.signals.dropLast else s.signals
       | none => s.signals) ∧
    (undo_last s).1.performance = s.performance ∧
    (undo_last s).2 = true := by
  unfold undo_last
  rw [if_neg h]
  rcases hg : s.signals.getLast? with _ | sg
  · simp only [hg]
    by_cases he : s.history.dropLast.isEmpty
    all_goals simp [he, analyze_history, analyze_signals, analyze_performance]
  · simp only [hg]
    by_cases hc : sg.correct = none
    all_goals by_cases he : s.history.dropLast.isEmpty
    all_goals simp [hc, he, analyze_history, analyze_signals, analyze_performance]

theorem undo_performance (s : AnalyzerState) :
    (undo_last s).1.performance = s.performance := by
  by_cases h : s.history.isEmpty
  · unfold undo_last
    rw [if_pos h]
  · exact (undo_shape s h).2.2.1

/-- `add_outcome` unfolded: the two branches on the freshly computed
prediction. -/
theorem add_shape (s : AnalyzerState) (o : Outcome) :
    ((analyze_data { verify_previous_prediction s o with
        history := (verify_previous_prediction s o).history ++ [o] }).analysis.prediction = none →
      add_outcome s o =
        analyze_data { verify_previous_prediction s o with
          history := (verify_previous_prediction s o).history ++ [o] }) ∧
    (∀ p, (analyze_data { verify_previous_prediction s o with
        history := (verify_previous_prediction s o).history ++ [o] }).analysis.prediction = some p →
      add_outcome s o =
        { analyze_data { verify_previous_prediction s o with
            history := (verify_previous_prediction s o).history ++ [o] } with
          signals := (analyze_data { verify_previous_prediction s o with
            history := (verify_previous_prediction s o).history ++ [o] }).signals ++
            [{ patterns := (analyze_data { verify_previous_prediction s o with
                 history := (verify_previous_prediction s o).history ++ [o] }).analysis.patterns,
               prediction := p, correct := none,
               confidence := (analyze_data { verify_previous_prediction s o with
                 history := (verify_previous_prediction s o).history ++ [o] }).analysis.confidence }] }) := by
  constructor
  · intro hp
    unfold add_outcome
    simp [hp]
  · intro p hp
    unfold add_outcome
    simp [hp]

theorem flipOutcome_ne_E (x : Outcome) : flipOutcome x ≠ .E := by
  unfold flipOutcome
  split <;> simp

theorem make_prediction_scores (ps : PatternScores) (results : List Outcome)
    (pats : List PatternMatch) :
    (make_prediction ps results pats).2 = adjustScores ps := by
  unfold make_prediction
  rcases hsel : (selectBest (adjustScores ps) pats).1 with _ | k
  · simp [hsel]
  · cases k <;> simp [hsel]

theorem make_prediction_ptype (ps : PatternScores) (results : List Outcome)
    (pats : List PatternMatch) :
    (make_prediction ps results pats).1.pattern_type =
      (selectBest (adjustScores ps) pats).1 := by
  unfold make_prediction
  rcases hsel : (selectBest (adjustScores ps) pats).1 with _ | k
  · simp [hsel]
  · cases k <;> simp [hsel] <;> split <;> rfl

theorem make_prediction_color_ne_E (ps : PatternScores) (results : List Outcome)
    (pats : List PatternMatch) :
    (make_prediction ps results pats).1.color ≠ some .E := by
  unfold make_prediction
  rcases hsel : (selectBest (adjustScores ps) pats).1 with _ | k
  · simp [hsel]
  · cases k <;>
      simp only [hsel] <;>
      split <;>
      simp [flipOutcome_ne_E]

/-- The selection loop of `make_prediction` with an arbitrary accumulator:
either no element beats the running maximum and the accumulator survives, or
the result is the first element attaining the strict maximum. -/
theorem selectBest_fold (ps : PatternScores) (pats : List PatternMatch)
    (o : Option PatternType) (h : ℕ) :
    (pats.foldl
        (fun acc p =>
          let priority := (ps.get p.type).priority
          if priority > acc.2 then (some p.type, priority) else acc)
        (o, h) = (o, h) ∧ ∀ p ∈ pats, (ps.get p.type).priority ≤ h)
    ∨ (∃ l₁ q l₂, pats = l₁ ++ q :: l₂ ∧
        pats.foldl
          (fun acc p =>
            let priority := (ps.get p.type).priority
            if priority > acc.2 then (some p.type, priority) else acc)
          (o, h) = (some q.type, (ps.get q.type).priority) ∧
        h < (ps.get q.type).priority ∧
        (∀ x ∈ l₁, (ps.get x.type).priority < (ps.get q.type).priority) ∧
        (∀ x ∈ l₂, (ps.get x.type).priority ≤ (ps.get q.type).priority)) := by
  induction pats generalizing o h with
  | nil =>
    left
    exact ⟨rfl, by simp⟩
  | cons p rest ih =>
    simp only [List.foldl_cons]
    by_cases hp : (ps.get p.type).priority > h
    · rw [if_pos hp]
      rcases ih (some p.type) ((ps.get p.type).priority) with ⟨heq, hall⟩ |
        ⟨l₁, q, l₂, hsplit, heq, hlt, hl₁, hl₂⟩
      · right
        exact ⟨[], p, rest, rfl, heq, hp, by simp, hall⟩
      · right
        refine ⟨p :: l₁, q, l₂, by rw [hsplit]; rfl, heq, lt_trans hp hlt, ?_, hl₂⟩
        intro x hx
        rcases List.mem_cons.mp hx with hx1 | hx1
        · rw [hx1]; exact hlt
        · exact hl₁ x hx1
    · rw [if_neg hp]
      push_neg at hp
      rcases ih o h with ⟨heq, hall⟩ | ⟨l₁, q, l₂, hsplit, heq, hlt, hl₁, hl₂⟩
      · left
        refine ⟨heq, ?_⟩
        intro x hx
        rcases List.mem_cons.mp hx with hx1 | hx1
        · rw [hx1]; exact hp
        · exact hall x hx1
      · right
        refine ⟨p :: l₁, q, l₂, by rw [hsplit]; rfl, heq, hlt, ?_, hl₂⟩
        intro x hx
        rcases List.mem_cons.mp hx with hx1 | hx1
        · rw [hx1]; exact lt_of_le_of_lt hp hlt
        · exact hl₁ x hx1

theorem specAdjustScore_priority_pos (s : Score) :
    1 ≤ (specAdjustScore s).priority := by
  unfold specAdjustScore
  split
  · rename_i hc
    simp only
    refine le_min (by norm_num) ?_
    have ht : 0 < s.total := by omega
    exact (Nat.le_div_iff_mul_le ht).mpr (by omega)
  · simp only
    exact Nat.le_max_left 1 _

theorem specAdjustScore_hits (s : Score) : (specAdjustScore s).hits = s.hits := by
  unfold specAdjustScore
  split <;> rfl

theorem specAdjustScore_total (s : Score) : (specAdjustScore s).total = s.total := by
  unfold specAdjustScore
  split <;> rfl

theorem specAdjustScores_get (ps : PatternScores) (k : PatternType) :
    (specAdjustScores ps).get k = specAdjustScore (ps.get k) := by
  cases k <;> rfl

theorem analyze_pattern_scores (t : AnalyzerState) :
    (analyze_data t).pattern_scores =
      if t.history.length < 3 then t.pattern_scores
      else adjustScores t.pattern_scores := by
  unfold analyze_data
  split
  · rfl
  · simp only
    exact make_prediction_scores _ _ _

theorem analyze_analysis (t : AnalyzerState) (h : ¬ t.history.length < 3) :
    (analyze_data t).analysis.prediction =
      (make_prediction t.pattern_scores (t.history.drop (t.history.length - 90))
        (detect_patterns (t.history.drop (t.history.length - 90)))).1.color ∧
    (analyze_data t).analysis.confidence =
      (make_prediction t.pattern_scores (t.history.drop (t.history.length - 90))
        (detect_patterns (t.history.drop (t.history.length - 90)))).1.confidence := by
  unfold analyze_data
  rw [if_neg h]
  exact ⟨rfl, rfl⟩

theorem analyze_prediction_ne_E (t : AnalyzerState) :
    ∀ p, (analyze_data t).analysis.prediction = some p → p ≠ .E := by
  intro p hp
  by_cases h : t.history.length < 3
  · unfold analyze_data at hp
    rw [if_pos h] at hp
    simp [defaultAnalysis] at hp
  · rw [(analyze_analysis t h).1] at hp
    intro he
    rw [he] at hp
    exact make_prediction_color_ne_E _ _ _ hp

theorem verify_performance (s : AnalyzerState) (o : Outcome) :
    (verify_previous_prediction s o).performance = s.performance ∨
    ∃ b : Bool, (verify_previous_prediction s o).performance =
      { total := s.performance.total + 1
        hits := s.performance.hits + (if b then 1 else 0)
        misses := s.performance.misses + (if b then 0 else 1) } := by
  unfold verify_previous_prediction
  rcases hr : resolveRevAux o s.signals.reverse with ⟨l', r⟩
  rcases r with _ | ⟨b, pats⟩
  · left; rfl
  · right; exact ⟨b, rfl⟩

theorem add_performance (s : AnalyzerState) (o : Outcome) :
    (add_outcome s o).performance = (verify_previous_prediction s o).performance := by
  rcases hp : (analyze_data { verify_previous_prediction s o with
      history := (verify_previous_prediction s o).history ++ [o] }).analysis.prediction
    with _ | p
  · rw [(add_shape s o).1 hp, analyze_performance]
  · rw [(add_shape s o).2 p hp]
    simp only
    rw [analyze_performance]

theorem add_history (s : AnalyzerState) (o : Outcome) :
    (add_outcome s o).history = s.history ++ [o] := by
  rcases hp : (analyze_data { verify_previous_prediction s o with
      history := (verify_previous_prediction s o).history ++ [o] }).analysis.prediction
    with _ | p
  · rw [(add_shape s o).1 hp, analyze_history]
    simp only
    rw [verify_history]
  · rw [(add_shape s o).2 p hp]
    simp only
    rw [analyze_history]
    simp only
    rw [verify_history]

theorem make_prediction_nat_conf (ps : PatternScores) (results : List Outcome)
    (pats : List PatternMatch) (k : PatternType)
    (hk : (make_prediction_nat ps results pats).1.pattern_type = some k) :
    (make_prediction_nat ps results pats).1.confidence =
      specConfidence ((specAdjustScores ps).get k) := by
  unfold make_prediction_nat at hk ⊢
  rcases hsel : (selectBest (specAdjustScores ps) pats).1 with _ | k'
  · simp only [hsel] at hk
    simp at hk
  · simp only [hsel] at hk ⊢
    cases k' <;> simp_all

/-! # Claim theorems -/

/-- C5: on a history of fewer than 3 entries the analysis yields no
prediction, confidence 0, no patterns, and Low risk and volatility. -/
theorem c5_short_history_defaults (s : AnalyzerState)
    (h : s.history.length < 3) :
    (analyze_data s).analysis.prediction = none ∧
    (analyze_data s).analysis.confidence = 0 ∧
    (analyze_data s).analysis.patterns = [] ∧
    (analyze_data s).analysis.riskLevel = .Baixo ∧
    (analyze_data s).analysis.volatility = .Baixo := by
  unfold analyze_data
  rw [if_pos h]
  exact ⟨rfl, rfl, rfl, rfl, rfl⟩

theorem c5_witness :
    (analyze_data initState).analysis.prediction = none ∧
    (analyze_data initState).analysis.confidence = 0 ∧
    (analyze_data initState).analysis.patterns = [] ∧
    (analyze_data initState).analysis.riskLevel = .Baixo ∧
    (analyze_data initState).analysis.volatility = .Baixo :=
  c5_short_history_defaults initState (by decide)

/-- C4 (counterexample): on the window `[C, V, C, V, V]` the claim's change
rate (differing transitions over transition count) is 3/4 > 0.6, demanding
Low volatility, but the code answers Medium: it divides the 3 differing
transitions by the window length 5, giving exactly 0.6, which fails the
strict `> 0.6` test. -/
theorem c4_volatility_counterexample :
    claimVolatility [.C, .V, .C, .V, .V] = Level.Baixo ∧
    _assess_volatility [.C, .V, .C, .V, .V] = Level.Medio := by
  constructor
  · unfold claimVolatility
    have h1 : specDiffTransitions [Outcome.C, .V, .C, .V, .V] = 3 := by decide
    have h2 : ([Outcome.C, .V, .C, .V, .V] : List Outcome).length - 1 = 4 := by decide
    rw [h1, h2]
    norm_num
  · rw [volatility_eq_nat]
    decide

/-- C4 (amended): the volatility of a window of fewer than 5 entries is Low;
otherwise the change rate is the number of differing adjacent transitions
divided by the window *length*, with rate < 0.2 giving High, rate > 0.6
giving Low, and Medium otherwise. -/
theorem c4_volatility_amended (results : List Outcome) :
    _assess_volatility results = amendedVolatility results := by
  unfold _assess_volatility amendedVolatility
  rw [countChanges_eq_spec]

/-- C3 (counterexample): with `hits = 2, total = 3` on the selected
alternating kind, the claim's round-to-nearest rule gives
`round(66.66…) = 67`, but the code's `int(...)` truncation reports 66. -/
theorem c3_confidence_counterexample :
    (make_prediction ⟨⟨2,3,3⟩, ⟨0,0,2⟩, ⟨0,0,1⟩⟩ [.C,.C,.V]
      (detect_patterns [.C,.C,.V])).1.pattern_type = some .alternating ∧
    ((⟨⟨2,3,3⟩, ⟨0,0,2⟩, ⟨0,0,1⟩⟩ : PatternScores).get .alternating).hits = 2 ∧
    ((⟨⟨2,3,3⟩, ⟨0,0,2⟩, ⟨0,0,1⟩⟩ : PatternScores).get .alternating).total = 3 ∧
    round (((2:ℕ):ℚ)/((3:ℕ):ℚ) * 100) = 67 ∧
    (make_prediction ⟨⟨2,3,3⟩, ⟨0,0,2⟩, ⟨0,0,1⟩⟩ [.C,.C,.V]
      (detect_patterns [.C,.C,.V])).1.confidence = 66 := by
  refine ⟨?_, rfl, rfl, ?_, ?_⟩
  · rw [make_prediction_eq_nat]
    decide
  · rw [round_eq,
      show (((2:ℕ):ℚ)/((3:ℕ):ℚ) * 100 + 1/2) = ((403:ℤ):ℚ)/((6:ℕ):ℚ) by norm_num,
      Rat.floor_intCast_div_natCast]
    decide
  · rw [make_prediction_eq_nat]
    decide

/-- C3 (amended): when a kind is selected, the reported confidence is
`⌊(hits/total)·100⌋` (truncation, not rounding) of that kind's stats when
`total > 0`, and the fixed default 50 when `total = 0`. -/
theorem c3_confidence_floor (ps : PatternScores) (results : List Outcome)
    (pats : List PatternMatch) (k : PatternType)
    (hk : (make_prediction ps results pats).1.pattern_type = some k) :
    (make_prediction ps results pats).1.confidence =
      if 0 < (ps.get k).total then 100 * (ps.get k).hits / (ps.get k).total
      else 50 := by
  rw [make_prediction_eq_nat] at hk ⊢
  rw [make_prediction_nat_conf ps results pats k hk, specConfidence,
    specAdjustScores_get, specAdjustScore_hits, specAdjustScore_total]

theorem c3_confidence_floor_witness :
    (make_prediction ⟨⟨2,3,3⟩, ⟨0,0,2⟩, ⟨0,0,1⟩⟩ [.V,.C,.V]
      (detect_patterns [.V,.C,.V])).1.pattern_type = some .alternating ∧
    (make_prediction ⟨⟨2,3,3⟩, ⟨0,0,2⟩, ⟨0,0,1⟩⟩ [.V,.C,.V]
      (detect_patterns [.V,.C,.V])).1.confidence =
      if 0 < ((⟨⟨2,3,3⟩, ⟨0,0,2⟩, ⟨0,0,1⟩⟩ : PatternScores).get .alternating).total
      then 100 * ((⟨⟨2,3,3⟩, ⟨0,0,2⟩, ⟨0,0,1⟩⟩ : PatternScores).get .alternating).hits /
        ((⟨⟨2,3,3⟩, ⟨0,0,2⟩, ⟨0,0,1⟩⟩ : PatternScores).get .alternating).total
      else 50 := by
  have hk : (make_prediction ⟨⟨2,3,3⟩, ⟨0,0,2⟩, ⟨0,0,1⟩⟩ [.V,.C,.V]
      (detect_patterns [.V,.C,.V])).1.pattern_type = some .alternating := by
    rw [make_prediction_eq_nat]
    decide
  exact ⟨hk, c3_confidence_floor _ _ _ _ hk⟩

/-- C1: `make_prediction` first recomputes every kind's priority —
`⌊min(5, (hits/total)·5)⌋` when `total > 5` and the hit ratio exceeds 1/2,
otherwise a decay by 1 floored at 1 — and then selects, among the detected
matches, the first one (in detector-declaration order) whose kind attains
the strictly highest recomputed priority. -/
theorem c1_priority_recompute_and_selection (ps : PatternScores)
    (results : List Outcome) (pats : List PatternMatch) :
    (∀ k, (make_prediction ps results pats).2.get k = specAdjustScore (ps.get k)) ∧
    ((make_prediction ps results pats).1.pattern_type = none → pats = []) ∧
    (∀ k, (make_prediction ps results pats).1.pattern_type = some k →
      ∃ l₁ q l₂, pats = l₁ ++ q :: l₂ ∧ q.type = k ∧
        (∀ x ∈ l₁, ((make_prediction ps results pats).2.get x.type).priority <
          ((make_prediction ps results pats).2.get q.type).priority) ∧
        (∀ x ∈ l₂, ((make_prediction ps results pats).2.get x.type).priority ≤
          ((make_prediction ps results pats).2.get q.type).priority)) := by
  have hsc : (make_prediction ps results pats).2 = specAdjustScores ps := by
    rw [make_prediction_scores, adjustScores_eq_spec]
  have hpt : (make_prediction ps results pats).1.pattern_type =
      (selectBest (specAdjustScores ps) pats).1 := by
    rw [make_prediction_ptype, adjustScores_eq_spec]
  have hfold := selectBest_fold (specAdjustScores ps) pats none 0
  have hsel : selectBest (specAdjustScores ps) pats =
      pats.foldl
        (fun acc p =>
          let priority := ((specAdjustScores ps).get p.type).priority
          if priority > acc.2 then (some p.type, priority) else acc)
        (none, 0) := rfl
  refine ⟨?_, ?_, ?_⟩
  · intro k
    rw [hsc, specAdjustScores_get]
  · intro hnone
    rw [hpt, hsel] at hnone
    rcases hfold with ⟨heq, hall⟩ | ⟨l₁, q, l₂, hsplit, heq, hlt, hl₁, hl₂⟩
    · cases pats with
      | nil => rfl
      | cons p rest =>
        have h1 := hall p (List.mem_cons_self _ _)
        rw [specAdjustScores_get] at h1
        have h2 := specAdjustScore_priority_pos (ps.get p.type)
        omega
    · rw [heq] at hnone
      simp at hnone
  · intro k hk
    rw [hpt, hsel] at hk
    rcases hfold with ⟨heq, hall⟩ | ⟨l₁, q, l₂, hsplit, heq, hlt, hl₁, hl₂⟩
    · rw [heq] at hk
      simp at hk
    · rw [heq] at hk
      simp only [Option.some.injEq] at hk
      refine ⟨l₁, q, l₂, hsplit, hk, ?_, ?_⟩
      · intro x hx
        rw [hsc]
        exact hl₁ x hx
      · intro x hx
        rw [hsc]
        exact hl₂ x hx

theorem c1_witness :
    ∃ l₁ q l₂, detect_patterns [Outcome.C, .C, .V] = l₁ ++ q :: l₂ ∧
      q.type = PatternType.alternating ∧
      (∀ x ∈ l₁, ((make_prediction initState.pattern_scores [Outcome.C, .C, .V]
          (detect_patterns [Outcome.C, .C, .V])).2.get x.type).priority <
        ((make_prediction initState.pattern_scores [Outcome.C, .C, .V]
          (detect_patterns [Outcome.C, .C, .V])).2.get q.type).priority) ∧
      (∀ x ∈ l₂, ((make_prediction initState.pattern_scores [Outcome.C, .C, .V]
          (detect_patterns [Outcome.C, .C, .V])).2.get x.type).priority ≤
        ((make_prediction initState.pattern_scores [Outcome.C, .C, .V]
          (detect_patterns [Outcome.C, .C, .V])).2.get q.type).priority) :=
  (c1_priority_recompute_and_selection initState.pattern_scores [Outcome.C, .C, .V]
    (detect_patterns [Outcome.C, .C, .V])).2.2 PatternType.alternating
    (by rw [make_prediction_eq_nat]; decide)

/-- C2: when a pending signal exists, `verify_previous_prediction` resolves
exactly the most recent unresolved entry: the performance total grows by 1;
on a hit the entry is marked correct, hits grows, and every embedded pattern
kind's total and hits grow; on a miss the entry is marked incorrect, misses
grows, and only the totals grow.  All other signal entries, the history and
the analysis are untouched. -/
theorem c2_resolve_most_recent_unresolved (s : AnalyzerState) (o : Outcome)
    (pre suf : List Signal) (sg : Signal)
    (hsig : s.signals = pre ++ sg :: suf)
    (hunres : sg.correct = none)
    (hsuf : ∀ t ∈ suf, t.correct ≠ none) :
    (verify_previous_prediction s o).signals =
      pre ++ { sg with correct := some (decide (sg.prediction = o)) } :: suf ∧
    (verify_previous_prediction s o).performance.total = s.performance.total + 1 ∧
    (sg.prediction = o →
      (verify_previous_prediction s o).performance.hits = s.performance.hits + 1 ∧
      (verify_previous_prediction s o).performance.misses = s.performance.misses ∧
      (∀ k, (verify_previous_prediction s o).pattern_scores.get k =
        { hits := (s.pattern_scores.get k).hits +
            sg.patterns.countP (fun p => p.type = k)
          total := (s.pattern_scores.get k).total +
            sg.patterns.countP (fun p => p.type = k)
          priority := (s.pattern_scores.get k).priority })) ∧
    (sg.prediction ≠ o →
      (verify_previous_prediction s o).performance.hits = s.performance.hits ∧
      (verify_previous_prediction s o).performance.misses = s.performance.misses + 1 ∧
      (∀ k, (verify_previous_prediction s o).pattern_scores.get k =
        { hits := (s.pattern_scores.get k).hits
          total := (s.pattern_scores.get k).total +
            sg.patterns.countP (fun p => p.type = k)
          priority := (s.pattern_scores.get k).priority })) ∧
    (verify_previous_prediction s o).history = s.history ∧
    (verify_previous_prediction s o).analysis = s.analysis := by
  have hrev : s.signals.reverse = suf.reverse ++ sg :: pre.reverse := by
    rw [hsig]
    simp
  have hres := resolveRevAux_found o suf.reverse
    (fun t ht => hsuf t (List.mem_reverse.mp ht)) sg hunres pre.reverse
  unfold verify_previous_prediction
  rw [hrev, hres]
  refine ⟨by simp, rfl, ?_, ?_, rfl, rfl⟩
  · intro hpo
    refine ⟨?_, ?_, ?_⟩
    · simp [hpo]
    · simp [hpo]
    · intro k
      rw [update_learning_get]
      simp [hpo]
  · intro hpo
    refine ⟨?_, ?_, ?_⟩
    · simp [hpo]
    · simp [hpo]
    · intro k
      rw [update_learning_get]
      simp [hpo]

theorem c2_witness :
    (verify_previous_prediction exampleState .C).signals =
      [] ++ { exampleSignal with
        correct := some (decide (exampleSignal.prediction = .C)) } :: [] ∧
    (verify_previous_prediction exampleState .C).performance.total =
      exampleState.performance.total + 1 ∧
    (exampleSignal.prediction = .C →
      (verify_previous_prediction exampleState .C).performance.hits =
        exampleState.performance.hits + 1 ∧
      (verify_previous_prediction exampleState .C).performance.misses =
        exampleState.performance.misses ∧
      (∀ k, (verify_previous_prediction exampleState .C).pattern_scores.get k =
        { hits := (exampleState.pattern_scores.get k).hits +
            exampleSignal.patterns.countP (fun p => p.type = k)
          total := (exampleState.pattern_scores.get k).total +
            exampleSignal.patterns.countP (fun p => p.type = k)
          priority := (exampleState.pattern_scores.get k).priority })) ∧
    (exampleSignal.prediction ≠ .C →
      (verify_previous_prediction exampleState .C).performance.hits =
        exampleState.performance.hits ∧
      (verify_previous_prediction exampleState .C).performance.misses =
        exampleState.performance.misses + 1 ∧
      (∀ k, (verify_previous_prediction exampleState .C).pattern_scores.get k =
        { hits := (exampleState.pattern_scores.get k).hits
          total := (exampleState.pattern_scores.get k).total +
            exampleSignal.patterns.countP (fun p => p.type = k)
          priority := (exampleState.pattern_scores.get k).priority })) ∧
    (verify_previous_prediction exampleState .C).history = exampleState.history ∧
    (verify_previous_prediction exampleState .C).analysis = exampleState.analysis :=
  c2_resolve_most_recent_unresolved exampleState .C [] [] exampleSignal rfl rfl
    (by simp)

/-- C6: `undo_last` returns false and changes nothing on an empty history,
and `add_outcome` immediately followed by `undo_last` restores both the
history length and the signal-ledger length, with `undo_last` reporting
success. -/
theorem c6_undo_reversibility :
    (∀ s : AnalyzerState, s.history = [] → undo_last s = (s, false)) ∧
    (∀ (s : AnalyzerState) (o : Outcome),
      (undo_last (add_outcome s o)).1.history.length = s.history.length ∧
      (undo_last (add_outcome s o)).1.signals.length = s.signals.length ∧
      (undo_last (add_outcome s o)).2 = true) := by
  constructor
  · exact undo_empty
  · intro s o
    have hAh : (add_outcome s o).history = s.history ++ [o] := add_history s o
    have hne : ¬ (add_outcome s o).history.isEmpty := by
      rw [hAh]
      simp
    obtain ⟨huh, hus, hup, hub⟩ := undo_shape (add_outcome s o) hne
    refine ⟨?_, ?_, hub⟩
    · rw [huh, hAh, List.dropLast_concat]
    · rcases hp : (analyze_data { verify_previous_prediction s o with
          history := (verify_previous_prediction s o).history ++ [o] }).analysis.prediction
        with _ | p
      · have hA := (add_shape s o).1 hp
        have hsig : (add_outcome s o).signals =
            (verify_previous_prediction s o).signals := by
          rw [hA, analyze_signals]
        rw [hsig] at hus
        rcases hg : (verify_previous_prediction s o).signals.getLast? with _ | sg
        · rw [hg] at hus
          simp only at hus
          rw [hus]
          exact verify_signals_length s o
        · rw [hg] at hus
          simp only at hus
          rw [if_neg (verify_getLast_resolved s o sg hg)] at hus
          rw [hus]
          exact verify_signals_length s o
      · have hA := (add_shape s o).2 p hp
        have hsig : (add_outcome s o).signals =
            (verify_previous_prediction s o).signals ++
              [{ patterns := (analyze_data { verify_previous_prediction s o with
                   history := (verify_previous_prediction s o).history ++ [o] }).analysis.patterns,
                 prediction := p, correct := none,
                 confidence := (analyze_data { verify_previous_prediction s o with
                   history := (verify_previous_prediction s o).history ++ [o] }).analysis.confidence }] := by
          rw [hA]
          simp only
          rw [analyze_signals]
        rw [hsig, List.getLast?_concat] at hus
        simp only at hus
        rw [List.dropLast_concat] at hus
        rw [hus]
        exact verify_signals_length s o

theorem c6_witness :
    (undo_last initState = (initState, false)) ∧
    ((undo_last (add_outcome initState .C)).1.history.length =
        initState.history.length ∧
      (undo_last (add_outcome initState .C)).1.signals.length =
        initState.signals.length ∧
      (undo_last (add_outcome initState .C)).2 = true) :=
  ⟨c6_undo_reversibility.1 initState rfl, c6_undo_reversibility.2 initState .C⟩

theorem add_analysis (s : AnalyzerState) (o : Outcome) :
    (add_outcome s o).analysis =
      (analyze_data { verify_previous_prediction s o with
        history := (verify_previous_prediction s o).history ++ [o] }).analysis := by
  rcases hp : (analyze_data { verify_previous_prediction s o with
      history := (verify_previous_prediction s o).history ++ [o] }).analysis.prediction
    with _ | p
  · rw [(add_shape s o).1 hp]
  · rw [(add_shape s o).2 p hp]

theorem verify_all_resolved_of_pending (s : AnalyzerState) (o : Outcome)
    (hpend : ∀ sg ∈ s.signals.dropLast, sg.correct ≠ none) :
    ∀ sg ∈ (verify_previous_prediction s o).signals, sg.correct ≠ none := by
  rcases List.eq_nil_or_concat s.signals with hnil | ⟨init, last, hsplit⟩
  · have hid : verify_previous_prediction s o = s := by
      unfold verify_previous_prediction
      rw [hnil]
      rfl
    rw [hid, hnil]
    intro sg hsg
    simp at hsg
  · rw [List.concat_eq_append] at hsplit
    have hdrop : s.signals.dropLast = init := by
      rw [hsplit, List.dropLast_concat]
    have hinit : ∀ t ∈ init, t.correct ≠ none := by
      rw [← hdrop]
      exact hpend
    by_cases hlast : last.correct = none
    · have hrev : s.signals.reverse = [] ++ last :: init.reverse := by
        rw [hsplit]
        simp
    -- the scan finds `last` immediately and resolves it
      have hres := resolveRevAux_found o [] (by simp) last hlast init.reverse
      intro sg hsg
      unfold verify_previous_prediction at hsg
      rw [hrev, hres] at hsg
      simp only at hsg
      simp at hsg
      rcases hsg with h1 | h1
      · exact hinit sg h1
      · rw [h1]
        simp
    · have hall : ∀ t ∈ s.signals.reverse, t.correct ≠ none := by
        intro t ht
        rw [List.mem_reverse, hsplit] at ht
        rcases List.mem_append.mp ht with h1 | h1
        · exact hinit t h1
        · simp at h1
          rw [h1]
          exact hlast
      have hid : verify_previous_prediction s o = s := by
        unfold verify_previous_prediction
        rw [resolveRevAux_all_resolved o s.signals.reverse hall]
      rw [hid]
      intro sg hsg
      rw [hsplit] at hsg
      rcases List.mem_append.mp hsg with h1 | h1
      · exact hinit sg h1
      · simp at h1
        rw [h1]
        exact hlast

theorem reachable_hits_le_total {s : AnalyzerState} (h : Reachable s) :
    s.performance.hits ≤ s.performance.total := by
  induction h with
  | init => exact Nat.le_refl 0
  | add o hr ih =>
    rename_i t
    rw [add_performance]
    rcases verify_performance t o with hv | ⟨b, hv⟩
    · rw [hv]
      exact ih
    · rw [hv]
      cases b
      all_goals simp
      all_goals omega
  | undo hr ih =>
    rw [undo_performance]
    exact ih
  | clear hr ih => exact Nat.le_refl 0

theorem reachable_pending {s : AnalyzerState} (h : Reachable s) :
    ∀ sg ∈ s.signals.dropLast, sg.correct ≠ none := by
  induction h with
  | init =>
    intro sg hsg
    simp [initState] at hsg
  | add o hr ih =>
    rename_i t
    rcases hp : (analyze_data { verify_previous_prediction t o with
        history := (verify_previous_prediction t o).history ++ [o] }).analysis.prediction
      with _ | p
    · rw [(add_shape t o).1 hp, analyze_signals]
      intro sg hsg
      exact verify_all_resolved_of_pending t o ih sg (List.dropLast_subset _ hsg)
    · rw [(add_shape t o).2 p hp]
      simp only
      rw [analyze_signals]
      simp only
      rw [List.dropLast_concat]
      intro sg hsg
      exact verify_all_resolved_of_pending t o ih sg hsg
  | undo hr ih =>
    rename_i t
    by_cases he : t.history.isEmpty
    · rw [undo_empty t (List.isEmpty_iff.mp he)]
      exact ih
    · rw [(undo_shape t he).2.1]
      rcases hg : t.signals.getLast? with _ | sg
      · simp only
        exact ih
      · simp only
        by_cases hc : sg.correct = none
        · rw [if_pos hc]
          intro u hu
          exact ih u (List.dropLast_subset _ hu)
        · rw [if_neg hc]
          exact ih
  | clear hr ih =>
    intro sg hsg
    simp [clear_history, initState] at hsg

/-- C7: on every reachable state the accuracy is `hits/total × 100`, lies in
`[0, 100]`, and is exactly 0 when no prediction has been resolved — the
zero-total division branch is never taken. -/
theorem c7_accuracy_bounds (s : AnalyzerState) (h : Reachable s) :
    0 ≤ get_accuracy s ∧ get_accuracy s ≤ 100 ∧
    (s.performance.total = 0 → get_accuracy s = 0) ∧
    (0 < s.performance.total →
      get_accuracy s =
        (s.performance.hits : ℚ) / (s.performance.total : ℚ) * 100) := by
  have hle := reachable_hits_le_total h
  unfold get_accuracy
  by_cases h0 : s.performance.total = 0
  · rw [if_pos h0]
    refine ⟨le_refl 0, by norm_num, fun _ => rfl, fun hc => absurd h0 (by omega)⟩
  · rw [if_neg h0]
    have ht : (0:ℚ) < (s.performance.total : ℚ) := ratCast_pos (by omega)
    have hratio : (s.performance.hits : ℚ) / (s.performance.total : ℚ) ≤ 1 := by
      rw [div_le_one ht]
      exact_mod_cast hle
    have hnn : (0:ℚ) ≤ (s.performance.hits : ℚ) / (s.performance.total : ℚ) :=
      div_nonneg (by positivity) (le_of_lt ht)
    exact ⟨by nlinarith, by nlinarith, fun hc => absurd hc h0, fun _ => rfl⟩

theorem c7_witness :
    0 ≤ get_accuracy initState ∧ get_accuracy initState ≤ 100 ∧
    (initState.performance.total = 0 → get_accuracy initState = 0) ∧
    (0 < initState.performance.total →
      get_accuracy initState =
        (initState.performance.hits : ℚ) / (initState.performance.total : ℚ) * 100) :=
  c7_accuracy_bounds initState Reachable.init

/-- C8: in every reachable state at most one signal is unresolved and it is
the most recent one (every entry other than the last is resolved); a call of
`add_outcome` leaves the ledger length unchanged when the fresh analysis
yields no prediction, and appends exactly one unresolved entry carrying the
predicted color when it does. -/
theorem c8_single_pending (s : AnalyzerState) (h : Reachable s) :
    (∀ sg ∈ s.signals.dropLast, sg.correct ≠ none) ∧
    (∀ o : Outcome,
      ((add_outcome s o).analysis.prediction = none →
        (add_outcome s o).signals.length = s.signals.length) ∧
      (∀ p, (add_outcome s o).analysis.prediction = some p →
        ∃ e : Signal, (add_outcome s o).signals =
            (verify_previous_prediction s o).signals ++ [e] ∧
          e.correct = none ∧ e.prediction = p ∧
          (verify_previous_prediction s o).signals.length = s.signals.length)) := by
  refine ⟨reachable_pending h, ?_⟩
  intro o
  constructor
  · intro hnone
    rw [add_analysis] at hnone
    rw [(add_shape s o).1 hnone, analyze_signals]
    exact verify_signals_length s o
  · intro p hp
    rw [add_analysis] at hp
    rw [(add_shape s o).2 p hp]
    set t := (analyze_data { verify_previous_prediction s o with
      history := (verify_previous_prediction s o).history ++ [o] }) with ht
    refine ⟨(⟨t.analysis.patterns, p, none, t.analysis.confidence⟩ : Signal),
      ?_, rfl, rfl, verify_signals_length s o⟩
    simp only
    rw [ht, analyze_signals]

theorem c8_witness :
    (∀ sg ∈ initState.signals.dropLast, sg.correct ≠ none) ∧
    (∀ o : Outcome,
      ((add_outcome initState o).analysis.prediction = none →
        (add_outcome initState o).signals.length = initState.signals.length) ∧
      (∀ p, (add_outcome initState o).analysis.prediction = some p →
        ∃ e : Signal, (add_outcome initState o).signals =
            (verify_previous_prediction initState o).signals ++ [e] ∧
          e.correct = none ∧ e.prediction = p ∧
          (verify_previous_prediction initState o).signals.length =
            initState.signals.length)) :=
  c8_single_pending initState Reachable.init

theorem undo_analysis_cases (t : AnalyzerState) (h : ¬ t.history.isEmpty) :
    (undo_last t).1.analysis = defaultAnalysis ∨
    ∃ u : AnalyzerState, (undo_last t).1.analysis = (analyze_data u).analysis := by
  unfold undo_last
  rw [if_neg h]
  rcases hg : t.signals.getLast? with _ | sg
  · simp only
    by_cases h2 : t.history.dropLast.isEmpty
    · left
      simp [h2]
    · right
      refine ⟨{ t with history := t.history.dropLast }, ?_⟩
      simp [h2]
  · simp only
    by_cases hc : sg.correct = none
    all_goals by_cases h2 : t.history.dropLast.isEmpty
    · left
      simp [hc, h2]
    · right
      refine ⟨{ t with history := t.history.dropLast, signals := t.signals.dropLast }, ?_⟩
      simp [hc, h2]
    · left
      simp [hc, h2]
    · right
      refine ⟨{ t with history := t.history.dropLast }, ?_⟩
      simp [hc, h2]

theorem reachable_no_tie {s : AnalyzerState} (h : Reachable s) :
    (∀ sg ∈ s.signals, sg.prediction ≠ .E) ∧
    (∀ p, s.analysis.prediction = some p → p ≠ .E) := by
  induction h with
  | init =>
    constructor
    · intro sg hsg
      simp [initState] at hsg
    · intro p hp
      simp [initState, defaultAnalysis] at hp
  | add o hr ih =>
    rename_i t
    have hver : ∀ sg ∈ (verify_previous_prediction t o).signals,
        sg.prediction ≠ .E := by
      intro sg hsg
      unfold verify_previous_prediction at hsg
      rcases hr2 : resolveRevAux o t.signals.reverse with ⟨l', r⟩
      rw [hr2] at hsg
      rcases r with _ | ⟨b, pats⟩
      · exact ih.1 sg hsg
      · simp only at hsg
        rw [List.mem_reverse] at hsg
        have hpred := resolveRevAux_predictions o t.signals.reverse sg
        rw [hr2] at hpred
        rcases hpred hsg with ⟨u, hu, hequ⟩
        rw [hequ]
        exact ih.1 u (List.mem_reverse.mp hu)
    constructor
    · rcases hp : (analyze_data { verify_previous_prediction t o with
          history := (verify_previous_prediction t o).history ++ [o] }).analysis.prediction
        with _ | p
      · rw [(add_shape t o).1 hp, analyze_signals]
        exact hver
      · rw [(add_shape t o).2 p hp]
        simp only
        rw [analyze_signals]
        intro sg hsg
        rcases List.mem_append.mp hsg with h1 | h1
        · exact hver sg h1
        · simp at h1
          rw [h1]
          simp only
          exact analyze_prediction_ne_E _ p hp
    · intro p hp
      rw [add_analysis] at hp
      exact analyze_prediction_ne_E _ p hp
  | undo hr ih =>
    rename_i t
    by_cases he : t.history.isEmpty
    · rw [undo_empty t (List.isEmpty_iff.mp he)]
      exact ih
    · constructor
      · rw [(undo_shape t he).2.1]
        rcases hg : t.signals.getLast? with _ | sg
        · simp only
          exact ih.1
        · simp only
          by_cases hc : sg.correct = none
          · rw [if_pos hc]
            intro u hu
            exact ih.1 u (List.dropLast_subset _ hu)
          · rw [if_neg hc]
            exact ih.1
      · rcases undo_analysis_cases t he with hd | ⟨u, hu⟩
        · rw [hd]
          intro p hp
          simp [defaultAnalysis] at hp
        · rw [hu]
          exact analyze_prediction_ne_E u
  | clear hr ih =>
    constructor
    · intro sg hsg
      simp [clear_history, initState] at hsg
    · intro p hp
      simp [clear_history, initState, defaultAnalysis] at hp

/-- C9: the engine never predicts the tie color: `make_prediction` never
outputs `E`; on every reachable state neither the analysis snapshot nor any
ledger entry carries an `E` prediction; and when the alternating or 2x2
kind drives the prediction with a tie as last outcome, the output is `V`
(blue). -/
theorem c9_prediction_never_tie :
    (∀ (ps : PatternScores) (results : List Outcome) (pats : List PatternMatch),
      (make_prediction ps results pats).1.color ≠ some .E) ∧
    (∀ s : AnalyzerState, Reachable s →
      (∀ sg ∈ s.signals, sg.prediction ≠ .E) ∧
      (∀ p, s.analysis.prediction = some p → p ≠ .E)) ∧
    (∀ (ps : PatternScores) (results : List Outcome) (pats : List PatternMatch),
      ((make_prediction ps results pats).1.pattern_type = some .alternating ∨
       (make_prediction ps results pats).1.pattern_type = some .twoByTwo) →
      results.getLast? = some .E →
      (make_prediction ps results pats).1.color = some .V) := by
  refine ⟨make_prediction_color_ne_E, fun s h => reachable_no_tie h, ?_⟩
  intro ps results pats hsel hlast
  have hld : results.getLastD .E = .E := by
    rw [List.getLastD_eq_getLast?, hlast]
    rfl
  rw [make_prediction_ptype] at hsel
  unfold make_prediction
  rcases hsel with h | h
  all_goals simp only [h, hld]
  all_goals split
  all_goals rfl

theorem c9_witness :
    (make_prediction initState.pattern_scores [.C, .E]
      (detect_patterns [.C, .E])).1.color ≠ some .E ∧
    ((∀ sg ∈ initState.signals, sg.prediction ≠ .E) ∧
      (∀ p, initState.analysis.prediction = some p → p ≠ .E)) ∧
    (make_prediction initState.pattern_scores [.C, .E]
      (detect_patterns [.C, .E])).1.color = some .V :=
  ⟨c9_prediction_never_tie.1 initState.pattern_scores [.C, .E]
      (detect_patterns [.C, .E]),
   c9_prediction_never_tie.2.1 initState Reachable.init,
   c9_prediction_never_tie.2.2 initState.pattern_scores [.C, .E]
      (detect_patterns [.C, .E])
      (Or.inl (by rw [make_prediction_eq_nat]; decide)) rfl⟩

theorem adjustScores_get (ps : PatternScores) (k : PatternType) :
    (adjustScores ps).get k = adjustScore (ps.get k) := by
  cases k <;> rfl

theorem undo_pattern_scores (s : AnalyzerState) (hne : ¬ s.history.isEmpty)
    (hd : ¬ s.history.dropLast.isEmpty) :
    (undo_last s).1.pattern_scores =
      (if s.history.dropLast.length < 3 then s.pattern_scores
       else adjustScores s.pattern_scores) := by
  unfold undo_last
  rw [if_neg hne]
  rcases hg : s.signals.getLast? with _ | sg
  · simp only [hd, if_false, Bool.false_eq_true]
    rw [analyze_pattern_scores]
  · simp only
    by_cases hc : sg.correct = none
    · rw [if_pos hc]
      simp only [hd, if_false, Bool.false_eq_true]
      rw [analyze_pattern_scores]
    · rw [if_neg hc]
      simp only [hd, if_false, Bool.false_eq_true]
      rw [analyze_pattern_scores]

/-- C10 (amended): when at least 3 history entries remain after removing the
last one, `undo_last` re-runs the analysis and with it the priority
adjustment, so every kind below the learning threshold has its priority
decremented with floor 1 — `max 1 (priority − 1)`, which leaves a priority
already at the floor unchanged.  Consequently record-then-undo need not
restore priorities (it changes them whenever such a kind sat above the
floor), but it does restore them when every below-threshold priority is
already at the floor. -/
theorem c10_undo_decays_priorities :
    (∀ s : AnalyzerState, s.history ≠ [] → 3 ≤ s.history.dropLast.length →
      ∀ k, ¬ (5 < (s.pattern_scores.get k).total ∧
          (s.pattern_scores.get k).total < 2 * (s.pattern_scores.get k).hits) →
        ((undo_last s).1.pattern_scores.get k).priority =
          max 1 ((s.pattern_scores.get k).priority - 1)) ∧
    ((undo_last (add_outcome
        (add_outcome (add_outcome (add_outcome initState .C) .C) .V)
        .C)).1.pattern_scores.alternating.priority ≠
      (add_outcome (add_outcome (add_outcome initState .C) .C)
        .V).pattern_scores.alternating.priority) := by
  constructor
  · intro s hne h3 k hbelow
    have hne' : ¬ s.history.isEmpty := by
      rw [List.isEmpty_iff]
      exact hne
    have hd : ¬ s.history.dropLast.isEmpty := by
      rw [List.isEmpty_iff]
      intro hc
      rw [hc] at h3
      simp at h3
    rw [undo_pattern_scores s hne' hd, if_neg (by omega), adjustScores_get,
      adjustScore_eq_spec]
    unfold specAdjustScore
    rw [if_neg hbelow]
  · simp only [add_outcome_eq_nat, undo_last_eq_nat]
    decide

theorem c10_undo_decays_priorities_witness :
    ((undo_last (add_outcome (add_outcome (add_outcome (add_outcome initState .C)
        .C) .V) .C)).1.pattern_scores.get .alternating).priority =
      max 1 (((add_outcome (add_outcome (add_outcome (add_outcome initState .C)
        .C) .V) .C).pattern_scores.get .alternating).priority - 1) :=
  c10_undo_decays_priorities.1
    (add_outcome (add_outcome (add_outcome (add_outcome initState .C) .C) .V) .C)
    (by simp only [add_outcome_eq_nat]; decide)
    (by simp only [add_outcome_eq_nat]; decide)
    PatternType.alternating
    (by simp only [add_outcome_eq_nat]; decide)

/-- C10 (counterexample): from the reachable state after outcomes C, C, V, C
every kind's stats are below the learning threshold and all three priorities
sit at the floor 1; recording one more outcome and undoing it leaves every
priority exactly at its pre-call value, so record-then-undo *does* restore
the priorities here, against the claim's conclusion.  (The ≥3-remaining
precondition holds: the history grows to 5 entries and undo re-analyses 4.) -/
theorem c10_restore_counterexample :
    (add_outcome (add_outcome (add_outcome (add_outcome (add_outcome initState .C)
        .C) .V) .C) .V).history.length = 5 ∧
    (∀ k, ¬ (5 < (((add_outcome (add_outcome (add_outcome (add_outcome initState .C)
        .C) .V) .C).pattern_scores.get k).total) ∧
        (((add_outcome (add_outcome (add_outcome (add_outcome initState .C)
          .C) .V) .C).pattern_scores.get k).total) <
          2 * (((add_outcome (add_outcome (add_outcome (add_outcome initState .C)
          .C) .V) .C).pattern_scores.get k).hits))) ∧
    (undo_last (add_outcome (add_outcome (add_outcome (add_outcome (add_outcome
        initState .C) .C) .V) .C) .V)).1.pattern_scores.alternating.priority =
      (add_outcome (add_outcome (add_outcome (add_outcome initState .C) .C) .V)
        .C).pattern_scores.alternating.priority ∧
    (undo_last (add_outcome (add_outcome (add_outcome (add_outcome (add_outcome
        initState .C) .C) .V) .C) .V)).1.pattern_scores.streak_end.priority =
      (add_outcome (add_outcome (add_outcome (add_outcome initState .C) .C) .V)
        .C).pattern_scores.streak_end.priority ∧
    (undo_last (add_outcome (add_outcome (add_outcome (add_outcome (add_outcome
        initState .C) .C) .V) .C) .V)).1.pattern_scores.twoByTwo.priority =
      (add_outcome (add_outcome (add_outcome (add_outcome initState .C) .C) .V)
        .C).pattern_scores.twoByTwo.priority := by
  simp only [add_outcome_eq_nat, undo_last_eq_nat]
  decide
